import Mathlib

/-!
Verification of the validation adapter (`validate`, src/unnamed/part_000) and the
operational error class (`ExpressError`, src/lib/express-error.ts) of the
base-backend-express repository, against its natural-language specification.

The embedding models JavaScript values as an inductive `JsValue`, the external
Zod validator as a capability record with a synchronous and an asynchronous
safe-parse operation, Zod's `error.flatten().fieldErrors` as a fold over the
issue list with an association list of field → messages, and `validate` as a
function that threads the global console log explicitly and returns through an
`Except` channel that represents thrown JavaScript exceptions (the body never
uses the error branch, which is exactly the no-throw property of the source).
-/

set_option autoImplicit false

namespace BaseBackend

/-- A JavaScript value supplied as the untyped `data` argument of `validate`:
`null`, `undefined`, primitives, objects and arrays. -/
inductive JsValue where
  | null : JsValue
  | undef : JsValue
  | str : String → JsValue
  | num : Int → JsValue
  | boolean : Bool → JsValue
  | obj : List (String × JsValue) → JsValue
  | arr : List JsValue → JsValue

/-- One issue of a Zod validation error: the path of the offending field
(empty for a root-level / form-level issue) and a human-readable message. -/
structure ZodIssue where
  path : List String
  message : String
deriving DecidableEq

/-- The structured failure exposed by a Zod safe-parse result: the ordered
list of issues and the error's own human-readable `message` property. -/
structure ZodError where
  issues : List ZodIssue
  message : String
deriving DecidableEq

/-- The discriminated result of `safeParse` / `safeParseAsync`:
either the parsed (possibly transformed) output or a `ZodError`. -/
inductive ParseResult (O : Type) where
  | success : O → ParseResult O
  | failure : ZodError → ParseResult O

/-- The external validator capability consumed by `validate`: a synchronous
parse operation and an asynchronous one (the latter modelled by the value its
promise resolves to). -/
structure Validator (O : Type) where
  safeParse : JsValue → ParseResult O
  safeParseAsync : JsValue → ParseResult O

/-- The options object of `validate`; the source destructures `{ async }`. -/
structure ValidateOptions where
  async : Bool
deriving DecidableEq

/-- The default used when the options argument is omitted:
`{ async } = { async: false }`. -/
def defaultValidateOptions : ValidateOptions := ⟨false⟩

/-- The literal object returned by `validate`, with one `Option` per property
so that presence and absence of each property is part of the model:
the source returns either `{ success: true, data }` or
`{ success: false, message, errors }`. -/
structure JsResultObj (O : Type) where
  success : Bool
  data : Option O
  message : Option String
  errors : Option (List (String × List String))

/-- A thrown JavaScript exception (the value thrown). -/
inductive JsError where
  | thrown : String → JsError

/-- One step of Zod's `flatten`: append message `v` to the entry of key `k`
in the field-errors association list, creating the entry if absent. -/
def insertFieldError : List (String × List String) → String → String → List (String × List String)
  | [], k, v => [(k, [v])]
  | (k', vs) :: rest, k, v =>
      if k' = k then (k', vs ++ [v]) :: rest
      else (k', vs) :: insertFieldError rest k v

/-- Zod's `error.flatten().fieldErrors`: walk the issues in order; an issue
with a non-empty path contributes its message under the first path segment;
an issue with an empty path goes to `formErrors` and is dropped here. -/
def fieldErrorsOf (issues : List ZodIssue) : List (String × List String) :=
  issues.foldl
    (fun acc i =>
      match i.path with
      | [] => acc
      | k :: _ => insertFieldError acc k i.message)
    []

/-- The single console entry written by
`console.error("Validation failed:", result.error.message)`. -/
def logLine (errMessage : String) : String :=
  "Validation failed: " ++ errMessage

/-- The `validate` function of src/unnamed/part_000. The global console is
threaded explicitly as the list of entries written so far; the `Except`
layer is the JavaScript exception channel (an uncaught throw would surface
as `.error`). It selects the parse operation by `opts.async`, and on failure
logs the validator's raw error message and returns the fixed-message failure
object with the flattened field errors; on success it returns the data. -/
def validate {O : Type} (validator : Validator O) (data : JsValue)
    (opts : ValidateOptions) (console : List String) :
    Except JsError (JsResultObj O × List String) :=
  let result := if opts.async then validator.safeParseAsync data else validator.safeParse data
  match result with
  | .failure err =>
      .ok (⟨false, none, some "Validation failed", some (fieldErrorsOf err.issues)⟩,
        console ++ [logLine err.message])
  | .success d =>
      .ok (⟨true, some d, none, none⟩, console)

/-- The `ExpressError` class of src/lib/express-error.ts (the spec's
`OperationalError`): message, HTTP status code, operational flag. -/
structure ExpressError where
  message : String
  statusCode : Int
  isOperational : Bool
deriving DecidableEq

/-- The `ExpressError` constructor, step by step as the class executes it:
`super(message)` sets `message`; the field initializers set `statusCode = 200`
and `isOperational = false`; then the constructor body assigns
`this.statusCode = statusCode` and `this.isOperational = true`. -/
def ExpressError.make (message : String) (statusCode : Int) : ExpressError :=
  let e0 : ExpressError := ⟨message, 200, false⟩
  let e1 : ExpressError := ⟨e0.message, statusCode, e0.isOperational⟩
  let e2 : ExpressError := ⟨e1.message, e1.statusCode, true⟩
  e2

/-- Lookup in the field-errors association list. -/
def lookupKey : List (String × List String) → String → Option (List String)
  | [], _ => none
  | (k', vs) :: rest, k => if k' = k then some vs else lookupKey rest k

/-- Specification-side reading of the flattening: the ordered messages of all
issues attached to field `k` (an issue is attached to `k` when the first
segment of its path is `k`). -/
def messagesFor : List ZodIssue → String → List String
  | [], _ => []
  | i :: rest, k =>
      if i.path.head? = some k then i.message :: messagesFor rest k
      else messagesFor rest k

/-- One fold step of `fieldErrorsOf`. -/
def fieldErrorStep (acc : List (String × List String)) (i : ZodIssue) :
    List (String × List String) :=
  match i.path with
  | [] => acc
  | k :: _ => insertFieldError acc k i.message

lemma fieldErrorsOf_eq_foldl (issues : List ZodIssue) :
    fieldErrorsOf issues = issues.foldl fieldErrorStep [] := rfl

lemma lookupKey_insertFieldError (m : List (String × List String)) (k v k' : String) :
    lookupKey (insertFieldError m k v) k' =
      if k' = k then some (((lookupKey m k).getD []) ++ [v]) else lookupKey m k' := by
  induction m with
  | nil =>
      by_cases h : k' = k
      · subst h
        simp [insertFieldError, lookupKey]
      · have h2 : ¬ k = k' := fun hh => h hh.symm
        simp [insertFieldError, lookupKey, h, h2]
  | cons hd tl ih =>
      obtain ⟨k'', vs⟩ := hd
      by_cases h1 : k'' = k
      · subst h1
        by_cases h2 : k' = k''
        · subst h2
          simp [insertFieldError, lookupKey]
        · have h3 : ¬ k'' = k' := fun hh => h2 hh.symm
          simp [insertFieldError, lookupKey, h2, h3]
      · by_cases h2 : k'' = k'
        · subst h2
          simp [insertFieldError, lookupKey, h1, ih]
        · simp [insertFieldError, lookupKey, h1, h2, ih]

lemma lookupKey_foldl_fieldErrorStep (issues : List ZodIssue)
    (acc : List (String × List String)) (k : String) :
    lookupKey (issues.foldl fieldErrorStep acc) k =
      match messagesFor issues k with
      | [] => lookupKey acc k
      | ms => some (((lookupKey acc k).getD []) ++ ms) := by
  induction issues generalizing acc with
  | nil => simp [messagesFor]
  | cons i rest ih =>
      match hp : i.path with
      | [] =>
          have hstep : fieldErrorStep acc i = acc := by
            simp [fieldErrorStep, hp]
          have hmsg : messagesFor (i :: rest) k = messagesFor rest k := by
            simp [messagesFor, hp]
          simp only [List.foldl_cons, hstep, hmsg, ih]
      | p :: ps =>
          by_cases hpk : p = k
          · subst hpk
            have hstep : fieldErrorStep acc i = insertFieldError acc p i.message := by
              simp [fieldErrorStep, hp]
            have hmsg : messagesFor (i :: rest) p = i.message :: messagesFor rest p := by
              simp [messagesFor, hp]
            have hlook : lookupKey (insertFieldError acc p i.message) p =
                some (((lookupKey acc p).getD []) ++ [i.message]) := by
              simp [lookupKey_insertFieldError]
            rw [List.foldl_cons, hstep, ih, hmsg]
            cases hms : messagesFor rest p with
            | nil => simp [hlook]
            | cons m ms => simp [hlook, List.append_assoc]
          · have hstep : fieldErrorStep acc i = insertFieldError acc p i.message := by
              simp [fieldErrorStep, hp]
            have hmsg : messagesFor (i :: rest) k = messagesFor rest k := by
              simp [messagesFor, hp, hpk]
            have hlook : lookupKey (insertFieldError acc p i.message) k = lookupKey acc k := by
              have hk : ¬ k = p := fun h => hpk h.symm
              simp [lookupKey_insertFieldError, hk]
            rw [List.foldl_cons, hstep, ih, hmsg, hlook]

/-- The flattened field errors, looked up at a field `k`, are exactly the
ordered messages of the issues whose path starts at `k`, and the entry is
absent exactly when there is no such issue. -/
lemma lookupKey_fieldErrorsOf (issues : List ZodIssue) (k : String) :
    lookupKey (fieldErrorsOf issues) k =
      match messagesFor issues k with
      | [] => none
      | ms => some ms := by
  rw [fieldErrorsOf_eq_foldl, lookupKey_foldl_fieldErrorStep]
  cases messagesFor issues k <;> simp [lookupKey]

lemma lookupKey_fieldErrorsOf_ne_nil (issues : List ZodIssue) (k : String)
    (ms : List String) (h : lookupKey (fieldErrorsOf issues) k = some ms) : ms ≠ [] := by
  rw [lookupKey_fieldErrorsOf] at h
  cases hms : messagesFor issues k with
  | nil => rw [hms] at h; exact absurd h (by simp)
  | cons m tl =>
      rw [hms] at h
      intro hnil
      rw [hnil] at h
      exact absurd (Option.some.inj h) (by simp)

/-- Issues whose paths are all empty contribute nothing to the flattening. -/
lemma fieldErrorsOf_all_root (issues : List ZodIssue)
    (h : ∀ i ∈ issues, i.path = []) : fieldErrorsOf issues = [] := by
  have key : ∀ (is' : List ZodIssue), (∀ i ∈ is', i.path = []) →
      ∀ acc, is'.foldl fieldErrorStep acc = acc := by
    intro is' h'
    induction is' with
    | nil => intro acc; rfl
    | cons i rest ih =>
        intro acc
        have hi : i.path = [] := h' i (List.mem_cons_self i rest)
        have hstep : fieldErrorStep acc i = acc := by simp [fieldErrorStep, hi]
        rw [List.foldl_cons, hstep]
        exact ih (fun j hj => h' j (List.mem_cons_of_mem i hj)) acc
  rw [fieldErrorsOf_eq_foldl]
  exact key issues h []

/-! ### Concrete validators and inputs, for instantiating the theorems -/

/-- Lookup of a property in a JavaScript object's field list. -/
def lookupField : List (String × JsValue) → String → Option JsValue
  | [], _ => none
  | (k', v) :: rest, k => if k' = k then some v else lookupField rest k

/-- The parsed output of the specification's example schema
`{name: string, age: number}`. -/
structure NameAge where
  name : String
  age : Int
deriving DecidableEq

/-- A concrete safe-parse emulating a schema requiring an object with a
string `name` and a numeric `age`: a non-object input yields one root-level
issue; a missing or mistyped field yields one issue at that field's path. -/
def nameAgeParse (d : JsValue) : ParseResult NameAge :=
  match d with
  | .obj fields =>
      match lookupField fields "name", lookupField fields "age" with
      | some (.str n), some (.num a) => .success ⟨n, a⟩
      | nv, av =>
          let nameIssues : List ZodIssue :=
            match nv with
            | some (.str _) => []
            | some _ => [⟨["name"], "Expected string, received other"⟩]
            | none => [⟨["name"], "Required"⟩]
          let ageIssues : List ZodIssue :=
            match av with
            | some (.num _) => []
            | some _ => [⟨["age"], "Expected number, received string"⟩]
            | none => [⟨["age"], "Required"⟩]
          .failure ⟨nameIssues ++ ageIssues, "invalid_type"⟩
  | _ => .failure ⟨[⟨[], "Expected object, received other"⟩], "invalid_type"⟩

/-- The example validator, identical on the synchronous and asynchronous path. -/
def nameAgeValidator : Validator NameAge := ⟨nameAgeParse, nameAgeParse⟩

/-- The specification's failing example input `{name: "Al", age: "x"}`. -/
def badInput : JsValue := .obj [("name", .str "Al"), ("age", .str "x")]

/-- The specification's succeeding example input `{name: "Al", age: 30}`. -/
def goodInput : JsValue := .obj [("name", .str "Al"), ("age", .num 30)]

/-- The error `nameAgeParse` reports on `badInput`. -/
def badErr : ZodError := ⟨[⟨["age"], "Expected number, received string"⟩], "invalid_type"⟩

/-- A non-object input, on which `nameAgeParse` reports one root-level issue. -/
def rootErr : ZodError := ⟨[⟨[], "Expected object, received other"⟩], "invalid_type"⟩

/-- Evaluation of `validate` when the selected parse operation fails. -/
lemma validate_eq_failure (O : Type) (V : Validator O) (d : JsValue)
    (opts : ValidateOptions) (console : List String) (err : ZodError)
    (h : (if opts.async then V.safeParseAsync d else V.safeParse d) = .failure err) :
    validate V d opts console =
      .ok (⟨false, none, some "Validation failed", some (fieldErrorsOf err.issues)⟩,
        console ++ [logLine err.message]) := by
  unfold validate
  rw [h]

/-- Evaluation of `validate` when the selected parse operation succeeds. -/
lemma validate_eq_success (O : Type) (V : Validator O) (d : JsValue)
    (opts : ValidateOptions) (console : List String) (o : O)
    (h : (if opts.async then V.safeParseAsync d else V.safeParse d) = .success o) :
    validate V d opts console = .ok (⟨true, some o, none, none⟩, console) := by
  unfold validate
  rw [h]

/-! ### Claim theorems -/

/-- C1: when the selected parse operation fails, `validate` returns the
failure variant with `success = false` and `message = "Validation failed"`,
and its `errors` mapping contains exactly the field paths reported by the
validator (the first segment of each issue's non-empty path, which is how the
flattening keys its entries), each mapped to its non-empty ordered list of
error-message strings. -/
theorem validate_failure_shape (O : Type) (V : Validator O) (d : JsValue)
    (opts : ValidateOptions) (console : List String) (err : ZodError)
    (h : (if opts.async then V.safeParseAsync d else V.safeParse d) = .failure err) :
    validate V d opts console =
      .ok (⟨false, none, some "Validation failed", some (fieldErrorsOf err.issues)⟩,
        console ++ [logLine err.message]) ∧
    (∀ k : String, lookupKey (fieldErrorsOf err.issues) k =
        match messagesFor err.issues k with
        | [] => none
        | ms => some ms) ∧
    (∀ (k : String) (ms : List String),
        lookupKey (fieldErrorsOf err.issues) k = some ms → ms ≠ []) := by
  refine ⟨?_, fun k => lookupKey_fieldErrorsOf err.issues k,
    fun k ms hk => lookupKey_fieldErrorsOf_ne_nil err.issues k ms hk⟩
  unfold validate
  rw [h]

/-- Witness for C1 at the specification's failing example:
`validate` on `{name: "Al", age: "x"}` with the name/age validator. -/
theorem validate_failure_shape_witness :
    validate nameAgeValidator badInput defaultValidateOptions [] =
      .ok (⟨false, none, some "Validation failed", some (fieldErrorsOf badErr.issues)⟩,
        [logLine badErr.message]) ∧
    (∀ k : String, lookupKey (fieldErrorsOf badErr.issues) k =
        match messagesFor badErr.issues k with
        | [] => none
        | ms => some ms) ∧
    (∀ (k : String) (ms : List String),
        lookupKey (fieldErrorsOf badErr.issues) k = some ms → ms ≠ []) :=
  validate_failure_shape NameAge nameAgeValidator badInput defaultValidateOptions [] badErr rfl

/-- C2: when the selected parse operation succeeds, `validate` returns the
success variant with `data` equal to the validator's parsed output, on the
synchronous path and on the asynchronous path alike. -/
theorem validate_success_data (O : Type) (V : Validator O) (d : JsValue)
    (opts : ValidateOptions) (console : List String) (o : O)
    (h : (if opts.async then V.safeParseAsync d else V.safeParse d) = .success o) :
    validate V d opts console = .ok (⟨true, some o, none, none⟩, console) := by
  unfold validate
  rw [h]

/-- Witness for C2 at the specification's succeeding example
`{name: "Al", age: 30}`, once with `async = false` and once with
`async = true`. -/
theorem validate_success_data_witness :
    validate nameAgeValidator goodInput ⟨false⟩ [] =
      .ok (⟨true, some ⟨"Al", 30⟩, none, none⟩, []) ∧
    validate nameAgeValidator goodInput ⟨true⟩ [] =
      .ok (⟨true, some ⟨"Al", 30⟩, none, none⟩, []) :=
  ⟨validate_success_data NameAge nameAgeValidator goodInput ⟨false⟩ [] ⟨"Al", 30⟩ rfl,
   validate_success_data NameAge nameAgeValidator goodInput ⟨true⟩ [] ⟨"Al", 30⟩ rfl⟩

/-- C3: `validate` never throws: for every validator, input value and
options, the JavaScript exception channel is unused — the call always
returns a result (`Except.ok`), with validator failures delivered inside the
returned object rather than propagated as a thrown error. -/
theorem validate_never_throws (O : Type) (V : Validator O) (d : JsValue)
    (opts : ValidateOptions) (console : List String) :
    ∃ r, validate V d opts console = .ok r := by
  unfold validate
  cases hr : (if opts.async then V.safeParseAsync d else V.safeParse d) with
  | success o => exact ⟨_, rfl⟩
  | failure err => exact ⟨_, rfl⟩

/-- C4: constructing `ExpressError` (the spec's `OperationalError`) with a
message and a status code stores the message as-is, the status code as-is
without range validation, and sets `isOperational` to `true`; in particular
`new ExpressError("Not found", 404)` has exactly those fields. -/
theorem expressError_construction :
    (∀ (m : String) (s : Int),
      (ExpressError.make m s).message = m ∧
      (ExpressError.make m s).statusCode = s ∧
      (ExpressError.make m s).isOperational = true) ∧
    ExpressError.make "Not found" 404 = ⟨"Not found", 404, true⟩ :=
  ⟨fun _ _ => ⟨rfl, rfl, rfl⟩, rfl⟩

/-- C5: `validate` consults the asynchronous parse operation exactly when
`options.async` is `true` and the synchronous one otherwise: replacing the
unselected operation by an arbitrary dummy never changes the call's result,
and an omitted options argument behaves as `async = false`. -/
theorem validate_selects_parse_path (O : Type) (V : Validator O) (d : JsValue)
    (console : List String) (dummy : JsValue → ParseResult O) :
    validate V d ⟨true⟩ console = validate ⟨dummy, V.safeParseAsync⟩ d ⟨true⟩ console ∧
    validate V d ⟨false⟩ console = validate ⟨V.safeParse, dummy⟩ d ⟨false⟩ console ∧
    validate V d defaultValidateOptions console = validate V d ⟨false⟩ console := by
  refine ⟨?_, ?_, rfl⟩ <;> unfold validate <;> rfl

/-- C6: on every failing parse, the returned `message` is the fixed string
`"Validation failed"`; the validator's own error message is not part of the
returned object (the same issues with any other error message produce the
identical returned object) and appears only in the console log entry. -/
theorem validate_fixed_failure_message (O : Type) (V : Validator O) (d : JsValue)
    (opts : ValidateOptions) (console : List String) (err : ZodError)
    (h : (if opts.async then V.safeParseAsync d else V.safeParse d) = .failure err) :
    validate V d opts console =
      .ok (⟨false, none, some "Validation failed", some (fieldErrorsOf err.issues)⟩,
        console ++ [logLine err.message]) ∧
    (∀ m' : String,
      validate (⟨fun _ => .failure ⟨err.issues, m'⟩, fun _ => .failure ⟨err.issues, m'⟩⟩ :
          Validator O) d opts console =
        .ok (⟨false, none, some "Validation failed", some (fieldErrorsOf err.issues)⟩,
          console ++ [logLine m'])) := by
  constructor
  · unfold validate
    rw [h]
  · intro m'
    unfold validate
    cases hb : opts.async <;> rfl

/-- Witness for C6 at the failing example input. -/
theorem validate_fixed_failure_message_witness :
    validate nameAgeValidator badInput ⟨false⟩ [] =
      .ok (⟨false, none, some "Validation failed", some (fieldErrorsOf badErr.issues)⟩,
        [logLine badErr.message]) ∧
    (∀ m' : String,
      validate (⟨fun _ => .failure ⟨badErr.issues, m'⟩, fun _ => .failure ⟨badErr.issues, m'⟩⟩ :
          Validator NameAge) badInput ⟨false⟩ [] =
        .ok (⟨false, none, some "Validation failed", some (fieldErrorsOf badErr.issues)⟩,
          [logLine m'])) :=
  validate_fixed_failure_message NameAge nameAgeValidator badInput ⟨false⟩ [] badErr rfl

/-- C7: calling `validate` twice with the same validator, data and options
yields equal result objects: the second call, run on the console state the
first call left behind, returns the very same outcome. -/
theorem validate_idempotent (O : Type) (V : Validator O) (d : JsValue)
    (opts : ValidateOptions) (console0 console1 : List String) (r1 : JsResultObj O)
    (h : validate V d opts console0 = .ok (r1, console1)) :
    ∃ console2, validate V d opts console1 = .ok (r1, console2) := by
  cases hr : (if opts.async then V.safeParseAsync d else V.safeParse d) with
  | success o =>
      rw [validate_eq_success O V d opts console0 o hr, Except.ok.injEq, Prod.mk.injEq] at h
      exact ⟨console1, by rw [validate_eq_success O V d opts console1 o hr, h.1]⟩
  | failure err =>
      rw [validate_eq_failure O V d opts console0 err hr, Except.ok.injEq, Prod.mk.injEq] at h
      exact ⟨console1 ++ [logLine err.message],
        by rw [validate_eq_failure O V d opts console1 err hr, h.1]⟩

/-- Witness for C7: the repeated call on the failing example. -/
theorem validate_idempotent_witness :
    ∃ console2, validate nameAgeValidator badInput ⟨false⟩ [logLine badErr.message] =
      .ok (⟨false, none, some "Validation failed", some (fieldErrorsOf badErr.issues)⟩,
        console2) :=
  validate_idempotent NameAge nameAgeValidator badInput ⟨false⟩ [] [logLine badErr.message]
    ⟨false, none, some "Validation failed", some (fieldErrorsOf badErr.issues)⟩ rfl

/-- C8: on the failure path `validate` appends exactly one console entry,
and that entry contains the validator's raw error message; on the success
path the console is unchanged — no other effect exists in the model. -/
theorem validate_log_side_effect (O : Type) (V : Validator O) (d : JsValue)
    (opts : ValidateOptions) (console : List String) :
    (∀ err : ZodError,
      (if opts.async then V.safeParseAsync d else V.safeParse d) = .failure err →
      ∃ r, validate V d opts console = .ok (r, console ++ [logLine err.message]) ∧
        ∃ pre post, logLine err.message = pre ++ err.message ++ post) ∧
    (∀ o : O,
      (if opts.async then V.safeParseAsync d else V.safeParse d) = .success o →
      ∃ r, validate V d opts console = .ok (r, console)) := by
  constructor
  · intro err herr
    exact ⟨⟨false, none, some "Validation failed", some (fieldErrorsOf err.issues)⟩,
      validate_eq_failure O V d opts console err herr,
      "Validation failed: ", "", by simp [logLine]⟩
  · intro o ho
    exact ⟨⟨true, some o, none, none⟩, validate_eq_success O V d opts console o ho⟩

/-- Witness for C8: one entry appended on the failing example, none on the
succeeding example. -/
theorem validate_log_side_effect_witness :
    (∃ r, validate nameAgeValidator badInput ⟨false⟩ ["earlier"] =
        .ok (r, ["earlier"] ++ [logLine badErr.message]) ∧
      ∃ pre post, logLine badErr.message = pre ++ badErr.message ++ post) ∧
    (∃ r, validate nameAgeValidator goodInput ⟨false⟩ ["earlier"] = .ok (r, ["earlier"])) :=
  ⟨(validate_log_side_effect NameAge nameAgeValidator badInput ⟨false⟩ ["earlier"]).1
      badErr rfl,
   (validate_log_side_effect NameAge nameAgeValidator goodInput ⟨false⟩ ["earlier"]).2
      ⟨"Al", 30⟩ rfl⟩

/-- C9: when every issue of the failing parse is root-level (empty path),
`validate` still returns the failure variant, but its `errors` mapping is
empty: the flattening keeps only per-field issues. -/
theorem validate_drops_root_issues (O : Type) (V : Validator O) (d : JsValue)
    (opts : ValidateOptions) (console : List String) (err : ZodError)
    (h : (if opts.async then V.safeParseAsync d else V.safeParse d) = .failure err)
    (hroot : ∀ i ∈ err.issues, i.path = []) :
    validate V d opts console =
      .ok (⟨false, none, some "Validation failed", some []⟩,
        console ++ [logLine err.message]) := by
  rw [validate_eq_failure O V d opts console err h, fieldErrorsOf_all_root err.issues hroot]

/-- Witness for C9: a non-object input, rejected with a single root-level
issue, yields a failure whose `errors` mapping is empty. -/
theorem validate_drops_root_issues_witness :
    validate nameAgeValidator (.str "oops") ⟨false⟩ [] =
      .ok (⟨false, none, some "Validation failed", some []⟩,
        [logLine rootErr.message]) :=
  validate_drops_root_issues NameAge nameAgeValidator (.str "oops") ⟨false⟩ [] rootErr rfl
    (by intro i hi; simp [rootErr] at hi; rw [hi])

/-- C10: every result of `validate` is a strict discriminated union on
`success`: with `success = true` it carries a `data` property and no
`message` or `errors` property; with `success = false` it carries `message`
and `errors` properties and no `data` property. -/
theorem validate_result_discriminated_union (O : Type) (V : Validator O) (d : JsValue)
    (opts : ValidateOptions) (console : List String) :
    ∃ r console', validate V d opts console = .ok (r, console') ∧
      ((r.success = true ∧ (∃ o, r.data = some o) ∧ r.message = none ∧ r.errors = none) ∨
       (r.success = false ∧ r.data = none ∧ (∃ m, r.message = some m) ∧
        (∃ e, r.errors = some e))) := by
  unfold validate
  cases hr : (if opts.async then V.safeParseAsync d else V.safeParse d) with
  | success o => exact ⟨_, _, rfl, Or.inl ⟨rfl, ⟨o, rfl⟩, rfl, rfl⟩⟩
  | failure err => exact ⟨_, _, rfl, Or.inr ⟨rfl, rfl, ⟨_, rfl⟩, ⟨_, rfl⟩⟩⟩

end BaseBackend
